import Mathlib

/- Verification of alli-lister: a one-shot batch tool that inventories AWS
Lambda functions across regions, enriches each record with its last
invocation time read from CloudWatch Logs, and exports a CSV file.

The development is a shallow embedding of the Go sources:
  - lambda.go : the `lambdaFunction` record and its title tags;
  - cmd.go    : the collector (`getAllLambdaFunctionsDetails`), the
                enrichment stage (`getAllLambdaFunctionsLastInvokeTime`)
                and the worker (`getLambdaFunctionLastInvokeTime`);
  - main.go   : the CSV export loop.
External AWS calls (ListFunctions, DescribeLogStreams) are modelled as
explicit function parameters, and the CloudWatch ordered query
DescribeLogStreams is modelled from its documented semantics (sort the
log streams by last event time, ascending unless Descending is set,
and return at most Limit of them). -/

namespace AlliLister

/-- The record type of lambda.go as it is actually used by cmd.go and
main.go, which read and write a `Region` field (cmd.go tags each record
with `lambdaClient.Options().Region`, main.go writes `lambdaDetails.Region`
into every CSV data row).  `LastInvoked` starts as the Go zero value "". -/
structure lambdaFunction where
  Name : String
  Region : String
  Arn : String
  Description : String
  LastModified : String
  IamRole : String
  Runtime : String
  LastInvoked : String
deriving DecidableEq

/-- The `title` struct tags of the struct declared in src/lambda.go, in
declared field order.  That declaration has exactly seven fields --
Name, Arn, Description, LastModified, IamRole, Runtime, LastInvoked --
and carries no Region field (and hence no Region title), even though the
rest of the program stores and exports a Region.  `getTitleFields`
reflects over those tags, so it returns exactly these seven titles. -/
def lambdaFunction.getTitleFields (_l : lambdaFunction) : List String :=
  ["Function Name", "Function ARN", "Function Description",
   "Last Modified", "IAM Role", "Runtime", "Last Invoked"]

/-- One CSV data row as built in main.go's export loop: eight fields,
with `Region` in second position. -/
def recordRow (lambdaDetails : lambdaFunction) : List String :=
  [lambdaDetails.Name, lambdaDetails.Region, lambdaDetails.Arn,
   lambdaDetails.Description, lambdaDetails.LastModified,
   lambdaDetails.IamRole, lambdaDetails.Runtime, lambdaDetails.LastInvoked]

/-- The export stage of main.go: it first evaluates
`lambdaFunctionsList[0].getTitleFields()` -- an out-of-range slice index
when the list is empty, which panics in Go and is modelled as `none` --
and then writes the title row followed by one `recordRow` per record. -/
def exportRows (lambdaFunctionsList : List lambdaFunction) :
    Option (List (List String)) :=
  match lambdaFunctionsList with
  | [] => none
  | r0 :: _ => some (r0.getTitleFields :: lambdaFunctionsList.map recordRow)

/-- The `job` struct of cmd.go: what a worker needs to query one
function's last invocation time and write it back into the slice. -/
structure job where
  functionName : String
  region : String
  index : Nat
deriving DecidableEq

/-- The job-building loop of cmd.go
(`for i, lambdaDetails := range lambdaFunctionsList`), generalised over
the running index so that the recursion is structural. -/
def mkJobsAux : Nat → List lambdaFunction → List job
  | _, [] => []
  | i, lambdaDetails :: rest =>
      { functionName := lambdaDetails.Name
        region := lambdaDetails.Region
        index := i } :: mkJobsAux (i + 1) rest

/-- All jobs built from the record list, indices starting at 0. -/
def mkJobs (lambdaFunctionsList : List lambdaFunction) : List job :=
  mkJobsAux 0 lambdaFunctionsList

/-- The producer loop sending jobs into `jobs := make(chan job, maxWorkers)`.
While the loop runs, no worker goroutine has been started yet, so nothing
ever receives from the channel: a send succeeds exactly when the buffer
holds fewer than `cap` jobs, and a send on a full buffer blocks forever
(Go's runtime reports a deadlock), modelled as `none`. -/
def enqueueLoop (cap : Nat) : List job → List job → Option (List job)
  | buf, [] => some buf
  | buf, currentJob :: rest =>
      if buf.length < cap then enqueueLoop cap (buf ++ [currentJob]) rest
      else none

/-- Result of sending every job into the fresh bounded channel:
the buffered job list, or `none` if the producer blocked forever. -/
def enqueueJobs (jobsList : List job) (cap : Nat) : Option (List job) :=
  enqueueLoop cap [] jobsList

/-- A CloudWatch log stream, reduced to the one field the program reads. -/
structure LogStream where
  lastEventTimestamp : Option Int
deriving DecidableEq

/-- Outcome of one DescribeLogStreams call as the worker distinguishes
them: a successful response carrying the returned stream list, a
`smithy.OperationError` with its operation name and unwrapped message,
or any other error. -/
inductive LookupResult where
  | success (logStreams : List LogStream)
  | opError (operation : String) (message : String)
  | otherError
deriving DecidableEq

/-- The constant `cloudWatchLogGroupDoesNotExistErrorMessage` of cmd.go. -/
def cloudWatchLogGroupDoesNotExistErrorMessage : String :=
  "The specified log group does not exist"

/-- The constant `lambdaLogGroupPrefix` of cmd.go: the log group of a
function is this string followed by the function name. -/
def lambdaLogGroupPfx : String := "/aws/lambda/"

/-- Whether `pat` occurs at the start of `s` (character lists). -/
def charsStartWith : List Char → List Char → Bool
  | _, [] => true
  | [], _ :: _ => false
  | c :: cs, d :: ds => c == d && charsStartWith cs ds

/-- Whether `pat` occurs anywhere inside `s` (character lists). -/
def charsContain : List Char → List Char → Bool
  | [], pat => pat.isEmpty
  | c :: cs, pat => charsStartWith (c :: cs) pat || charsContain cs pat

/-- Go's `strings.Contains`. -/
def strContains (s pat : String) : Bool := charsContain s.toList pat.toList

/-- Per-record set of the `LastInvoked` field at a slice index:
`lambdaFunctionsList[index].LastInvoked = v` in cmd.go. Out-of-range
indices leave the slice unchanged (the program only ever uses in-range
indices, as proved below). -/
def setLastInvoked : List lambdaFunction → Nat → String → List lambdaFunction
  | [], _, _ => []
  | r :: rs, 0, v => { r with LastInvoked := v } :: rs
  | r :: rs, n + 1, v => r :: setLastInvoked rs n v

/-- The body of the worker loop of `getLambdaFunctionLastInvokeTime` in
cmd.go, for one job taken from the channel.  `lookup region logGroupName`
stands for the DescribeLogStreams call made with a client configured for
`currentJob.region`:
  - an OperationError whose operation is "DescribeLogStreams" and whose
    message contains the log-group-does-not-exist text writes "-";
  - any other error writes nothing (the worker only logs);
  - a success with an empty stream list writes "-";
  - a success with a first stream carrying a timestamp writes the
    formatted value of that timestamp divided by 1000 (Go's integer
    division of milliseconds into whole seconds); `fmt` stands for
    `time.Unix(sec, 0).Format("2006-01-02T15:04:05-07:00")`;
  - a success whose first stream has no timestamp writes nothing. -/
def processJobStep (fmt : Int → String)
    (lookup : String → String → LookupResult)
    (lambdaFunctionsList : List lambdaFunction) (currentJob : job) :
    List lambdaFunction :=
  let logGroupName := lambdaLogGroupPfx ++ currentJob.functionName
  match lookup currentJob.region logGroupName with
  | .opError operation message =>
      if operation == "DescribeLogStreams" &&
          strContains message cloudWatchLogGroupDoesNotExistErrorMessage then
        setLastInvoked lambdaFunctionsList currentJob.index "-"
      else lambdaFunctionsList
  | .otherError => lambdaFunctionsList
  | .success logStreams =>
      match logStreams with
      | [] => setLastInvoked lambdaFunctionsList currentJob.index "-"
      | s :: _ =>
          match s.lastEventTimestamp with
          | some ts =>
              setLastInvoked lambdaFunctionsList currentJob.index
                (fmt (Int.tdiv ts 1000))
          | none => lambdaFunctionsList

/-- The aggregate effect of the worker goroutines draining the closed
channel (`for currentJob := range jobs`).  Each buffered job is received
by exactly one worker; since distinct jobs carry distinct record indices
and each job's effect touches only its own index, the final slice does
not depend on which worker got which job or in which order, so the
drain is modelled as a left fold over the buffered job list. -/
def getLambdaFunctionLastInvokeTime (fmt : Int → String)
    (lookup : String → String → LookupResult)
    (jobsList : List job) (lambdaFunctionsList : List lambdaFunction) :
    List lambdaFunction :=
  jobsList.foldl (processJobStep fmt lookup) lambdaFunctionsList

/-- The enrichment stage `getAllLambdaFunctionsLastInvokeTime` of cmd.go:
build one job per record, send them all into a channel of capacity
`maxWorkers` (before any worker goroutine exists), then start the
workers, close the channel and let them drain it; the caller's
`wg.Wait()` barrier returns when they are done.  `none` means the
producer blocked forever on a full channel and the stage never
completed. -/
def getAllLambdaFunctionsLastInvokeTime (fmt : Int → String)
    (lookup : String → String → LookupResult)
    (lambdaFunctionsList : List lambdaFunction) (maxWorkers : Nat) :
    Option (List lambdaFunction) :=
  (enqueueJobs (mkJobs lambdaFunctionsList) maxWorkers).map
    (fun buffered =>
      getLambdaFunctionLastInvokeTime fmt lookup buffered lambdaFunctionsList)

/-- How many worker goroutines the stage starts: the loop
`for range maxWorkers { wg.Add(1); go ... }` runs only after every send
has completed, so the count is `maxWorkers` when the producer finished
and no worker at all is ever started when it blocked. -/
def startedWorkerCount (lambdaFunctionsList : List lambdaFunction)
    (maxWorkers : Nat) : Option Nat :=
  (enqueueJobs (mkJobs lambdaFunctionsList) maxWorkers).map
    (fun _ => (List.range maxWorkers).length)

/-- The per-record summary of `processJobStep`: what one job's outcome
does to the one record it targets. -/
def jobUpdate (fmt : Int → String) (res : LookupResult)
    (r : lambdaFunction) : lambdaFunction :=
  match res with
  | .opError operation message =>
      if operation == "DescribeLogStreams" &&
          strContains message cloudWatchLogGroupDoesNotExistErrorMessage then
        { r with LastInvoked := "-" }
      else r
  | .otherError => r
  | .success [] => { r with LastInvoked := "-" }
  | .success (s :: _) =>
      match s.lastEventTimestamp with
      | some ts => { r with LastInvoked := fmt (Int.tdiv ts 1000) }
      | none => r

/-- The DescribeLogStreams call a worker makes for record `r`: region is
the job's region, log group name is the prefixed function name. -/
def lookupOutcome (lookup : String → String → LookupResult)
    (r : lambdaFunction) : LookupResult :=
  lookup r.Region (lambdaLogGroupPfx ++ r.Name)

/-- Insert a stream into a list sorted in ascending order of `key`. -/
def insertByKey (key : LogStream → Int) (s : LogStream) :
    List LogStream → List LogStream
  | [] => [s]
  | t :: ts =>
      if key s ≤ key t then s :: t :: ts else t :: insertByKey key s ts

/-- Sort streams in ascending order of `key` (insertion sort). -/
def sortByKey (key : LogStream → Int) : List LogStream → List LogStream
  | [] => []
  | s :: ss => insertByKey key s (sortByKey key ss)

/-- The CloudWatch DescribeLogStreams backend, modelled from its
documented semantics: order the log streams of the group by their last
event time (ascending unless `descending` is set) and return at most
`limit` of them.  The worker in cmd.go constructs its request with
`OrderBy: LastEventTime`, `Descending: aws.Bool(false)` and
`Limit: aws.Int32(1)`. -/
def describeLogStreams (streams : List LogStream) (descending : Bool)
    (limit : Nat) : List LogStream :=
  let ordered := sortByKey (fun s => s.lastEventTimestamp.getD 0) streams
  (if descending then ordered.reverse else ordered).take limit

/-- A lookup backend driven by the actual log-group state
`logGroups region logGroupName` (`none` meaning the group does not
exist): a missing group yields the DescribeLogStreams OperationError
with the log-group-does-not-exist message, and an existing group yields
the streams the ordered query returns for the request the worker builds
(`Descending: false`, `Limit: 1`). -/
def lookupFromBackend
    (logGroups : String → String → Option (List LogStream))
    (region : String) (logGroupName : String) : LookupResult :=
  match logGroups region logGroupName with
  | none =>
      .opError "DescribeLogStreams" cloudWatchLogGroupDoesNotExistErrorMessage
  | some streams => .success (describeLogStreams streams false 1)

/- The collector, cmd.go's getAllLambdaFunctionsDetails.  The backend
listing operation `backend region marker` stands for
`lambdaClient.ListFunctions` with the client of `region` and the
request marker `marker`; it returns the page and the next marker, or
`none` for an error (which the collector propagates, aborting the run). -/

/-- One function descriptor as returned by ListFunctions, reduced to the
fields the collector reads. -/
structure FnDesc where
  functionName : String
  functionArn : String
  description : String
  lastModified : String
  role : String
  runtime : String
deriving DecidableEq

/-- One page of a ListFunctions response. -/
structure ListOut where
  functions : List FnDesc
  nextMarker : Option String
deriving DecidableEq

/-- The record built from one descriptor in cmd.go's inner loop, tagged
with `lambdaClient.Options().Region`; `LastInvoked` is the zero value. -/
def mkRecordFromDesc (region : String) (f : FnDesc) : lambdaFunction :=
  { Name := f.functionName
    Region := region
    Arn := f.functionArn
    Description := f.description
    LastModified := f.lastModified
    IamRole := f.role
    Runtime := f.runtime
    LastInvoked := "" }

/-- The inner pagination loop of the collector for one region, started
with the marker currently stored in the shared `ListFunctionsInput`
(the input is declared once, outside the region loop).  Returns, besides
the converted records, the marker left in the shared input when the loop
ends -- the input's marker is assigned only when a response carries a
non-nil NextMarker, so after the loop it holds the marker of the last
request made for this region.  The second component is the trace of
`(region, marker)` request pairs actually sent.  `none` as first
component covers both a backend error (the collector returns the error)
and fuel exhaustion. -/
def listFunctionsLoop (backend : String → Option String → Option ListOut)
    (region : String) :
    Nat → Option String →
      Option (List lambdaFunction × Option String) ×
        List (String × Option String)
  | 0, _ => (none, [])
  | fuel + 1, marker =>
      match backend region marker with
      | none => (none, [(region, marker)])
      | some out =>
          let recs := out.functions.map (mkRecordFromDesc region)
          match out.nextMarker with
          | some m =>
              let next := listFunctionsLoop backend region fuel (some m)
              ((next.1.map fun p => (recs ++ p.1, p.2)),
                (region, marker) :: next.2)
          | none => (some (recs, marker), [(region, marker)])

/-- The outer region loop of the collector, threading the marker state of
the shared `ListFunctionsInput` from one region into the next (this is
what the single `in := &lambda.ListFunctionsInput{}` outside the loop
does).  Stops at the first failed region, like the early `return nil, err`. -/
def collectRegions (backend : String → Option String → Option ListOut)
    (fuel : Nat) :
    List String → Option String →
      Option (List lambdaFunction × Option String) ×
        List (String × Option String)
  | [], marker => (some ([], marker), [])
  | region :: rest, marker =>
      match listFunctionsLoop backend region fuel marker with
      | (none, tr) => (none, tr)
      | (some (recs, fm), tr) =>
          match collectRegions backend fuel rest fm with
          | (none, tr2) => (none, tr ++ tr2)
          | (some (recs2, fm2), tr2) => (some (recs ++ recs2, fm2), tr ++ tr2)

/-- cmd.go's getAllLambdaFunctionsDetails over the resolved region list:
the combined record list, or `none` if any page request failed. -/
def getAllLambdaFunctionsDetails
    (backend : String → Option String → Option ListOut) (fuel : Nat)
    (regions : List String) : Option (List lambdaFunction) :=
  (collectRegions backend fuel regions none).1.map (fun p => p.1)

/-- The trace of ListFunctions requests the collector sends, as
`(region, marker)` pairs in order. -/
def listRequestTrace
    (backend : String → Option String → Option ListOut) (fuel : Nat)
    (regions : List String) : List (String × Option String) :=
  (collectRegions backend fuel regions none).2

/-- A backend on which every region's listing fits into a single page:
a request with no marker returns `pages region` and no next marker; the
backend accepts no continuation marker (none is ever valid). -/
def singlePageBackend (pages : String → List FnDesc) :
    String → Option String → Option ListOut :=
  fun region marker =>
    match marker with
    | none => some { functions := pages region, nextMarker := none }
    | some _ => none

/- Concrete data used by the closed theorems below. -/

/-- A concrete record as the collector would produce it. -/
def sampleRecord : lambdaFunction :=
  { Name := "alpha"
    Region := "eu-west-1"
    Arn := "arn:aws:lambda:eu-west-1:123:function:alpha"
    Description := "first sample"
    LastModified := "2024-01-01T00:00:00.000+0000"
    IamRole := "arn:aws:iam::123:role/alpha-role"
    Runtime := "go1.x"
    LastInvoked := "" }

/-- A second concrete record. -/
def sampleRecordB : lambdaFunction :=
  { Name := "beta"
    Region := "us-east-1"
    Arn := "arn:aws:lambda:us-east-1:123:function:beta"
    Description := "second sample"
    LastModified := "2024-02-02T00:00:00.000+0000"
    IamRole := "arn:aws:iam::123:role/beta-role"
    Runtime := "nodejs20.x"
    LastInvoked := "" }

/-- A log group holding two streams: an older one (last event at
1000000 ms) and a more recent one (last event at 2000000 ms). -/
def demoStreams : List LogStream :=
  [{ lastEventTimestamp := some 2000000 },
   { lastEventTimestamp := some 1000000 }]

/-- A backend state in which every log group exists and holds
`demoStreams`. -/
def demoGroups : String → String → Option (List LogStream) :=
  fun _ _ => some demoStreams

/-- A concrete descriptor with the given name, other fields canonical. -/
def fnDescNamed (n : String) : FnDesc :=
  { functionName := n
    functionArn := "arn:" ++ n
    description := ""
    lastModified := "2024-03-03"
    role := "role-" ++ n
    runtime := "go1.x" }

/-- A listing backend for regions A and B where region A's listing takes
two pages (continuation marker "m1") and region B's takes one; any
request carrying a marker the addressed region never issued fails, the
way the real service rejects a foreign pagination token. -/
def pagedBackendEx : String → Option String → Option ListOut :=
  fun region marker =>
    if region = "A" then
      match marker with
      | none => some { functions := [fnDescNamed "f1"], nextMarker := some "m1" }
      | some m =>
          if m = "m1" then
            some { functions := [fnDescNamed "f2"], nextMarker := none }
          else none
    else if region = "B" then
      match marker with
      | none => some { functions := [fnDescNamed "g1"], nextMarker := none }
      | some _ => none
    else none

/-- The single-page listing contents of scenario E: region A has two
functions, region B has three. -/
def pagesEx : String → List FnDesc :=
  fun region =>
    if region = "A" then [fnDescNamed "a1", fnDescNamed "a2"]
    else if region = "B" then
      [fnDescNamed "b1", fnDescNamed "b2", fnDescNamed "b3"]
    else []

/-- The seven fields of a record other than `LastInvoked`: the ones the
enrichment stage must leave untouched. -/
def frameFields (r : lambdaFunction) :
    String × String × String × String × String × String × String :=
  (r.Name, r.Region, r.Arn, r.Description, r.LastModified, r.IamRole,
    r.Runtime)

theorem jobUpdate_frameFields (fmt : Int → String) (res : LookupResult)
    (r : lambdaFunction) : frameFields (jobUpdate fmt res r) = frameFields r := by
  cases res with
  | success ls =>
      cases ls with
      | nil => rfl
      | cons s rest =>
          cases h : s.lastEventTimestamp <;> simp [jobUpdate, h, frameFields]
  | opError op msg =>
      simp only [jobUpdate]
      split <;> rfl
  | otherError => rfl

theorem setLastInvoked_append (pre : List lambdaFunction)
    (r : lambdaFunction) (rs : List lambdaFunction) (v : String) :
    setLastInvoked (pre ++ r :: rs) pre.length v =
      pre ++ { r with LastInvoked := v } :: rs := by
  induction pre with
  | nil => rfl
  | cons p ps ih => simpa [setLastInvoked] using ih

theorem processJobStep_at (fmt : Int → String)
    (lookup : String → String → LookupResult) (pre : List lambdaFunction)
    (r : lambdaFunction) (rs : List lambdaFunction) (name region : String) :
    processJobStep fmt lookup (pre ++ r :: rs)
        { functionName := name, region := region, index := pre.length } =
      pre ++ jobUpdate fmt (lookup region (lambdaLogGroupPfx ++ name)) r :: rs := by
  cases h : lookup region (lambdaLogGroupPfx ++ name) with
  | success ls =>
      cases ls with
      | nil => simp [processJobStep, jobUpdate, h, setLastInvoked_append]
      | cons s rest =>
          cases hts : s.lastEventTimestamp <;>
            simp [processJobStep, jobUpdate, h, hts, setLastInvoked_append]
  | opError op msg =>
      simp only [processJobStep, jobUpdate, h]
      split <;> simp [setLastInvoked_append]
  | otherError => simp [processJobStep, jobUpdate, h]

theorem mkJobsAux_foldl (fmt : Int → String)
    (lookup : String → String → LookupResult) (rs : List lambdaFunction) :
    ∀ pre : List lambdaFunction,
      (mkJobsAux pre.length rs).foldl (processJobStep fmt lookup) (pre ++ rs) =
        pre ++ rs.map (fun r => jobUpdate fmt (lookupOutcome lookup r) r) := by
  induction rs with
  | nil => intro pre; simp [mkJobsAux]
  | cons r rest ih =>
      intro pre
      have hstep := processJobStep_at fmt lookup pre r rest r.Name r.Region
      have hlen : (pre ++ [jobUpdate fmt (lookupOutcome lookup r) r]).length =
          pre.length + 1 := by simp
      have ihx := ih (pre ++ [jobUpdate fmt (lookupOutcome lookup r) r])
      rw [hlen] at ihx
      simp only [mkJobsAux, List.foldl_cons, hstep]
      calc (mkJobsAux (pre.length + 1) rest).foldl (processJobStep fmt lookup)
            (pre ++ jobUpdate fmt (lookupOutcome lookup r) r :: rest)
          = (mkJobsAux (pre.length + 1) rest).foldl (processJobStep fmt lookup)
            ((pre ++ [jobUpdate fmt (lookupOutcome lookup r) r]) ++ rest) := by
            simp
        _ = (pre ++ [jobUpdate fmt (lookupOutcome lookup r) r]) ++
            rest.map (fun x => jobUpdate fmt (lookupOutcome lookup x) x) := ihx
        _ = pre ++ (r :: rest).map
            (fun x => jobUpdate fmt (lookupOutcome lookup x) x) := by simp

/-- Master lemma: draining the full job list built from the record list
updates every record from its own lookup outcome and does nothing else. -/
theorem enrich_eq_map (fmt : Int → String)
    (lookup : String → String → LookupResult)
    (records : List lambdaFunction) :
    getLambdaFunctionLastInvokeTime fmt lookup (mkJobs records) records =
      records.map (fun r => jobUpdate fmt (lookupOutcome lookup r) r) := by
  have h := mkJobsAux_foldl fmt lookup records []
  simpa [getLambdaFunctionLastInvokeTime, mkJobs] using h

theorem mkJobsAux_map_index (rs : List lambdaFunction) :
    ∀ k : Nat, (mkJobsAux k rs).map job.index = List.range' k rs.length := by
  induction rs with
  | nil => intro k; rfl
  | cons r rest ih => intro k; simp [mkJobsAux, List.range'_succ, ih]

theorem mkJobs_map_index (records : List lambdaFunction) :
    (mkJobs records).map job.index = List.range records.length := by
  rw [mkJobs, mkJobsAux_map_index, List.range_eq_range']

theorem enqueueLoop_some (cap : Nat) (jobsL : List job) :
    ∀ buf : List job, buf.length + jobsL.length ≤ cap →
      enqueueLoop cap buf jobsL = some (buf ++ jobsL) := by
  induction jobsL with
  | nil => intro buf _; simp [enqueueLoop]
  | cons j rest ih =>
      intro buf h
      simp only [List.length_cons] at h
      have hlt : buf.length < cap := by omega
      have h2 := ih (buf ++ [j])
        (by simp only [List.length_append, List.length_cons,
              List.length_nil]; omega)
      simp [enqueueLoop, hlt, h2]

theorem enqueueLoop_none (cap : Nat) (jobsL : List job) :
    ∀ buf : List job, buf.length ≤ cap → cap < buf.length + jobsL.length →
      enqueueLoop cap buf jobsL = none := by
  induction jobsL with
  | nil => intro buf hle hlt; simp at hlt; omega
  | cons j rest ih =>
      intro buf hle hlt
      by_cases hb : buf.length < cap
      · have := ih (buf ++ [j]) (by simp; omega) (by simp at hlt ⊢; omega)
        simp [enqueueLoop, hb, this]
      · simp [enqueueLoop, hb]

theorem enqueueLoop_inv (cap : Nat) (jobsL : List job) :
    ∀ buf res : List job, enqueueLoop cap buf jobsL = some res →
      res = buf ++ jobsL := by
  induction jobsL with
  | nil => intro buf res h; simp [enqueueLoop] at h; simp [h.symm]
  | cons j rest ih =>
      intro buf res h
      by_cases hb : buf.length < cap
      · simp [enqueueLoop, hb] at h
        have := ih (buf ++ [j]) res h
        simpa using this
      · simp [enqueueLoop, hb] at h

theorem enqueueJobs_of_le (jobsL : List job) (cap : Nat)
    (h : jobsL.length ≤ cap) : enqueueJobs jobsL cap = some jobsL := by
  simpa [enqueueJobs] using enqueueLoop_some cap jobsL [] (by simpa using h)

theorem enqueueJobs_of_gt (jobsL : List job) (cap : Nat)
    (h : cap < jobsL.length) : enqueueJobs jobsL cap = none := by
  simpa [enqueueJobs] using
    enqueueLoop_none cap jobsL [] (by simp) (by simpa using h)

theorem enqueueJobs_inv (jobsL res : List job) (cap : Nat)
    (h : enqueueJobs jobsL cap = some res) : res = jobsL := by
  simpa using enqueueLoop_inv cap jobsL [] res h

theorem mkJobsAux_length (rs : List lambdaFunction) :
    ∀ k : Nat, (mkJobsAux k rs).length = rs.length := by
  induction rs with
  | nil => intro k; rfl
  | cons r rest ih => intro k; simp [mkJobsAux, ih]

theorem mkJobs_length (records : List lambdaFunction) :
    (mkJobs records).length = records.length :=
  mkJobsAux_length records 0

theorem collectRegions_single_page (pages : String → List FnDesc)
    (regions : List String) : ∀ fuel : Nat, 0 < fuel →
    collectRegions (singlePageBackend pages) fuel regions none =
      (some (regions.foldr
          (fun reg acc => (pages reg).map (mkRecordFromDesc reg) ++ acc) [],
        none),
        regions.map (fun reg => (reg, (none : Option String)))) := by
  induction regions with
  | nil => intro fuel _; rfl
  | cons region rest ih =>
      intro fuel hf
      obtain ⟨f, rfl⟩ : ∃ f, fuel = f + 1 := ⟨fuel - 1, by omega⟩
      simp [collectRegions, listFunctionsLoop, singlePageBackend,
        ih (f + 1) (by omega)]

/-- C1: the claim says enrichment terminates with no deadlock for every
worker limit W >= 1 and inventory size N >= 0, even when N exceeds W.
The code sends all N jobs into the capacity-W channel before starting
any worker goroutine, so for N = 2 records and W = 1 the second send
blocks forever and the stage never completes (modelled as `none`): the
run deadlocks exactly as the claim's parenthetical describes but denies. -/
theorem c1_producer_deadlocks_on_full_channel :
    getAllLambdaFunctionsLastInvokeTime toString
        (fun _ _ => LookupResult.otherError) [sampleRecord, sampleRecordB] 1 =
      none := by decide

/-- C2: the claim says the header row and every data row have the same
columns in the same order.  The title row reflected from src/lambda.go's
struct tags has seven entries (the struct declares no Region field),
while every data row written by main.go has eight fields (Region in
second position), so the header and the data rows never agree in length. -/
theorem c2_header_and_row_column_counts_differ :
    ∀ r : lambdaFunction,
      (lambdaFunction.getTitleFields r).length ≠ (recordRow r).length := by
  intro r
  simp [lambdaFunction.getTitleFields, recordRow]

/-- C3: with an empty inventory the enrichment stage does complete
immediately (first conjunct), but the export stage evaluates
`lambdaFunctionsList[0].getTitleFields()`, an out-of-range index on the
empty slice, so the export panics instead of producing a header-only
file (second conjunct, `none` modelling the panic). -/
theorem c3_empty_inventory_enrichment_completes_but_export_panics :
    getAllLambdaFunctionsLastInvokeTime toString
        (fun _ _ => LookupResult.otherError) [] 1 = some [] ∧
      exportRows [] = none :=
  ⟨rfl, rfl⟩

/-- C4: the claim says the query is ordered so that the one returned
stream is the most recent one.  The code asks for `Descending: false`,
so the single stream returned is the oldest: on a log group whose
streams last saw events at 1000000 ms and 2000000 ms, the record
receives the formatted value of 1000000 / 1000 = 1000 seconds ("1000"
under the identity-style formatter) while the most recent invocation
would give 2000000 / 1000 = 2000 seconds ("2000"). -/
theorem c4_ascending_query_writes_oldest_timestamp :
    getAllLambdaFunctionsLastInvokeTime toString
        (lookupFromBackend demoGroups) [sampleRecord] 1 =
      some [{ sampleRecord with LastInvoked := "1000" }] ∧
    toString (Int.tdiv 2000000 1000) = "2000" ∧ ("1000" : String) ≠ "2000" :=
  ⟨by decide, by decide, by decide⟩

/-- C5 counterexample: the claim says every region's pagination starts
from the beginning.  With regions [A, B] where A's listing takes two
pages, the shared `ListFunctionsInput` still holds A's continuation
marker "m1" when the loop moves on to B, so B's first request carries
marker "m1" instead of starting from the beginning, and the backend's
rejection of the foreign marker aborts the whole collection. -/
theorem c5_stale_marker_counterexample :
    listRequestTrace pagedBackendEx 2 ["A", "B"] =
      [("A", none), ("A", some "m1"), ("B", some "m1")] ∧
    getAllLambdaFunctionsDetails pagedBackendEx 2 ["A", "B"] = none :=
  ⟨by decide, by decide⟩

/-- C5 (amended): when every region's listing fits into a single page --
so that no continuation marker is ever stored in the shared listing
input -- every region's one request carries no marker, and the combined
inventory is exactly the concatenation, region by region, of that
region's functions converted to records tagged with the originating
region's identifier. -/
theorem c5_single_page_collection :
    ∀ (pages : String → List FnDesc) (regions : List String) (fuel : Nat),
      0 < fuel →
      getAllLambdaFunctionsDetails (singlePageBackend pages) fuel regions =
        some (regions.foldr
          (fun reg acc => (pages reg).map (mkRecordFromDesc reg) ++ acc) []) := by
  intro pages regions fuel hf
  simp [getAllLambdaFunctionsDetails,
    collectRegions_single_page pages regions fuel hf]

/-- C5 witness: scenario E at a concrete input -- regions [A, B] with 2
and 3 single-page functions give exactly 5 records, each tagged with its
correct origin region. -/
theorem c5_single_page_collection_witness :
    0 < 1 ∧
    getAllLambdaFunctionsDetails (singlePageBackend pagesEx) 1 ["A", "B"] =
      some (["A", "B"].foldr
        (fun reg acc => (pagesEx reg).map (mkRecordFromDesc reg) ++ acc) []) ∧
    (["A", "B"].foldr
        (fun reg acc => (pagesEx reg).map (mkRecordFromDesc reg) ++ acc)
        []).map (fun r => (r.Name, r.Region)) =
      [("a1", "A"), ("a2", "A"), ("b1", "B"), ("b2", "B"), ("b3", "B")] :=
  ⟨by decide, c5_single_page_collection pagesEx ["A", "B"] 1 (by decide),
    by decide⟩

/-- C6 counterexample: the claim says that with N = 1 record and W = 2
the stage starts exactly N = 1 workers; the code's
`for range maxWorkers` loop starts exactly W = 2. -/
theorem c6_worker_count_counterexample :
    startedWorkerCount [sampleRecord] 2 = some 2 ∧ (2 : Nat) ≠ 1 :=
  ⟨by decide, by decide⟩

/-- C6 (amended): whenever the producer finishes enqueuing -- that is,
whenever N <= W -- the stage starts exactly W workers, also when N < W;
and when N > W the producer blocks forever before the worker-starting
loop, so no worker is ever started. -/
theorem c6_worker_count :
    ∀ (records : List lambdaFunction) (maxWorkers : Nat),
      (records.length ≤ maxWorkers →
        startedWorkerCount records maxWorkers = some maxWorkers) ∧
      (maxWorkers < records.length →
        startedWorkerCount records maxWorkers = none) := by
  intro records maxWorkers
  constructor
  · intro h
    rw [startedWorkerCount,
      enqueueJobs_of_le _ _ (by rw [mkJobs_length]; exact h)]
    simp
  · intro h
    rw [startedWorkerCount,
      enqueueJobs_of_gt _ _ (by rw [mkJobs_length]; exact h)]
    rfl

/-- C6 witness: one record, limit two -- the hypothesis N <= W holds and
the stage starts exactly two workers. -/
theorem c6_worker_count_witness :
    ([sampleRecord] : List lambdaFunction).length ≤ 2 ∧
    startedWorkerCount [sampleRecord] 2 = some 2 :=
  ⟨by decide, (c6_worker_count [sampleRecord] 2).1 (by decide)⟩

/-- C7: per-job outcome policy.  For the record at any position i:
a DescribeLogStreams OperationError whose message contains the
log-group-does-not-exist text writes the sentinel "-" (first conjunct);
a successful lookup with no streams writes the same sentinel "-"
(second conjunct); any other failure leaves the record exactly as it
was, untouched and unretried (third conjunct); and no outcome ever
aborts the batch: every record of the list still ends up enriched
according to its own lookup outcome (fourth conjunct). -/
theorem c7_per_job_outcome_policy :
    ∀ (fmt : Int → String) (lookup : String → String → LookupResult)
      (records : List lambdaFunction) (i : Nat) (r : lambdaFunction),
      records[i]? = some r →
      ((∀ msg : String,
          lookupOutcome lookup r = .opError "DescribeLogStreams" msg →
          strContains msg cloudWatchLogGroupDoesNotExistErrorMessage = true →
          (getLambdaFunctionLastInvokeTime fmt lookup (mkJobs records)
            records)[i]? = some { r with LastInvoked := "-" }) ∧
        (lookupOutcome lookup r = .success [] →
          (getLambdaFunctionLastInvokeTime fmt lookup (mkJobs records)
            records)[i]? = some { r with LastInvoked := "-" }) ∧
        (lookupOutcome lookup r = .otherError →
          (getLambdaFunctionLastInvokeTime fmt lookup (mkJobs records)
            records)[i]? = some r) ∧
        (∀ (j : Nat) (s : lambdaFunction), records[j]? = some s →
          (getLambdaFunctionLastInvokeTime fmt lookup (mkJobs records)
            records)[j]? =
            some (jobUpdate fmt (lookupOutcome lookup s) s))) := by
  intro fmt lookup records i r hi
  refine ⟨?_, ?_, ?_, ?_⟩
  · intro msg hout hc
    rw [enrich_eq_map, List.getElem?_map, hi]
    simp [jobUpdate, hout, hc]
  · intro hout
    rw [enrich_eq_map, List.getElem?_map, hi]
    simp [jobUpdate, hout]
  · intro hout
    rw [enrich_eq_map, List.getElem?_map, hi]
    simp [jobUpdate, hout]
  · intro j s hj
    rw [enrich_eq_map, List.getElem?_map, hj]
    rfl

/-- C7 witness: a one-record list whose lookup fails with a non-specific
error -- the record is left exactly at its initial value. -/
theorem c7_per_job_outcome_policy_witness :
    (([sampleRecord] : List lambdaFunction)[0]? = some sampleRecord) ∧
    (getLambdaFunctionLastInvokeTime toString
        (fun _ _ => LookupResult.otherError)
        (mkJobs [sampleRecord]) [sampleRecord])[0]? = some sampleRecord :=
  ⟨rfl, (c7_per_job_outcome_policy toString
      (fun _ _ => LookupResult.otherError) [sampleRecord] 0 sampleRecord
      rfl).2.2.1 rfl⟩

/-- C8: the indices carried by the generated jobs are exactly the range
[0, N), in order, with no duplicates and no gaps, and every index below
N is carried by exactly one job -- so each record's LastInvoked can be
written only by the single worker that consumed that record's one job. -/
theorem c8_job_indices_partition :
    ∀ records : List lambdaFunction,
      (mkJobs records).map job.index = List.range records.length ∧
      ∀ i : Nat, i < records.length →
        ((mkJobs records).map job.index).count i = 1 := by
  intro records
  refine ⟨mkJobs_map_index records, ?_⟩
  intro i hi
  rw [mkJobs_map_index]
  exact List.count_eq_one_of_mem (List.nodup_range _) (List.mem_range.mpr hi)

/-- C8 witness: two records -- index 0 is carried by exactly one job. -/
theorem c8_job_indices_partition_witness :
    0 < ([sampleRecord, sampleRecordB] : List lambdaFunction).length ∧
    ((mkJobs [sampleRecord, sampleRecordB]).map job.index).count 0 = 1 :=
  ⟨by decide,
    (c8_job_indices_partition [sampleRecord, sampleRecordB]).2 0 (by decide)⟩

/-- C9: frame property -- whenever the enrichment stage completes, the
resulting list has the same length and order as the input and every
record agrees with its original on all fields other than LastInvoked
(Name, Region, Arn, Description, LastModified, IamRole, Runtime). -/
theorem c9_enrichment_frame :
    ∀ (fmt : Int → String) (lookup : String → String → LookupResult)
      (records final : List lambdaFunction) (maxWorkers : Nat),
      getAllLambdaFunctionsLastInvokeTime fmt lookup records maxWorkers =
        some final →
      final.map frameFields = records.map frameFields := by
  intro fmt lookup records final maxWorkers h
  rw [getAllLambdaFunctionsLastInvokeTime] at h
  cases he : enqueueJobs (mkJobs records) maxWorkers with
  | none => rw [he] at h; simp at h
  | some buffered =>
      rw [he] at h
      simp only [Option.map_some'] at h
      have hb := enqueueJobs_inv _ _ _ he
      subst hb
      injection h with h
      rw [← h, enrich_eq_map, List.map_map]
      have hcomp :
          frameFields ∘ (fun r => jobUpdate fmt (lookupOutcome lookup r) r) =
            frameFields := by
        funext r
        exact jobUpdate_frameFields fmt (lookupOutcome lookup r) r
      rw [hcomp]

/-- C9 witness: a completing run (one record, limit one) whose output
preserves every frame field. -/
theorem c9_enrichment_frame_witness :
    getAllLambdaFunctionsLastInvokeTime toString
        (fun _ _ => LookupResult.otherError) [sampleRecord] 1 =
      some [sampleRecord] ∧
    ([sampleRecord] : List lambdaFunction).map frameFields =
      [sampleRecord].map frameFields :=
  ⟨by decide, c9_enrichment_frame toString
    (fun _ _ => LookupResult.otherError) [sampleRecord] [sampleRecord] 1
    (by decide)⟩

/-- C10: if a lookup succeeds with a non-empty stream list whose first
stream carries no last-event timestamp, the worker writes nothing at all
-- the record keeps its initial value, receiving neither a formatted
timestamp nor the "-" sentinel; and whenever a timestamp m (in
milliseconds) is written, the stored value is the formatted truncated
quotient m / 1000 (whole seconds, sub-second precision discarded). -/
theorem c10_missing_timestamp_skip_and_truncation :
    ∀ (fmt : Int → String) (lookup : String → String → LookupResult)
      (records : List lambdaFunction) (i : Nat) (r : lambdaFunction)
      (s : LogStream) (rest : List LogStream),
      records[i]? = some r →
      lookupOutcome lookup r = .success (s :: rest) →
      ((s.lastEventTimestamp = none →
          (getLambdaFunctionLastInvokeTime fmt lookup (mkJobs records)
            records)[i]? = some r) ∧
        (∀ m : Int, s.lastEventTimestamp = some m →
          (getLambdaFunctionLastInvokeTime fmt lookup (mkJobs records)
            records)[i]? =
            some { r with LastInvoked := fmt (Int.tdiv m 1000) })) := by
  intro fmt lookup records i r s rest hi hout
  constructor
  · intro hns
    rw [enrich_eq_map, List.getElem?_map, hi]
    simp [jobUpdate, hout, hns]
  · intro m hm
    rw [enrich_eq_map, List.getElem?_map, hi]
    simp [jobUpdate, hout, hm]

/-- C10 witness: one record whose lookup returns a single stream with
last event at 5500 ms -- the stored value is the formatted 5 whole
seconds. -/
theorem c10_missing_timestamp_skip_and_truncation_witness :
    (([sampleRecord] : List lambdaFunction)[0]? = some sampleRecord) ∧
    lookupOutcome (fun _ _ => LookupResult.success [⟨some 5500⟩])
        sampleRecord = .success (⟨some 5500⟩ :: []) ∧
    (getLambdaFunctionLastInvokeTime toString
        (fun _ _ => LookupResult.success [⟨some 5500⟩])
        (mkJobs [sampleRecord]) [sampleRecord])[0]? =
      some { sampleRecord with LastInvoked := toString (Int.tdiv 5500 1000) } :=
  ⟨rfl, rfl, (c10_missing_timestamp_skip_and_truncation toString
      (fun _ _ => LookupResult.success [⟨some 5500⟩]) [sampleRecord] 0
      sampleRecord ⟨some 5500⟩ [] rfl rfl).2 5500 rfl⟩

end AlliLister
